import Mathlib

/-!
Verification of the `awto` schema-to-package compiler
(`awto-cli/src/compile/database.rs`).

The development shallowly embeds the compiler's core:
* the identifier extractor `Database::read_schema_models` over a model of
  the parsed syntax tree (`syn::Item` / `proc_macro2::TokenTree`),
* the snake-case conversion used for generated module names
  (`heck::SnakeCase`, modelled for single-word identifier inputs),
* the generated `lib.rs` content built in `Database::prepare_database_dir`,
* a file-system model (association list from paths to entries) for the
  directory reset / create / write sequence, and
* the orchestrating `Database::run` as a staged state transformer that
  also records which stages executed.
-/

deriving instance DecidableEq for Except

namespace Awto

/-- Error taxonomy of the run, following the spec's names; each variant
carries the context the code attaches (path or identifier). -/
inductive Err where
  | loadCargo (msg : String)
  | invalidSchemaName (actual : String)
  | missingSchemaName
  | parseErr (msg : String)
  | noRegistrationFound (msg : String)
  | dirDelete (path : List String)
  | dirCreate (path : List String)
  | fileWrite (path : List String)
  | workspaceRegistration (msg : String)
  | buildErr (msg : String)
deriving DecidableEq

/-- Model of `proc_macro2::TokenTree`: the tokens of a macro invocation's
argument list.  Only identifiers carry their spelling; the other variants
are payload-free because `read_schema_models` discards them. -/
inductive TokenTree where
  | ident (s : String)
  | punct (c : Char)
  | literal (s : String)
  | group
deriving DecidableEq

/-- Model of the top-level `syn::Item`s of the schema source: a macro
invocation item carries its path segments (`mac.path.segments`) and its
argument tokens (`mac.tokens`); every other item shape is `other`. -/
inductive Item where
  | macroCall (path : List String) (tokens : List TokenTree)
  | other
deriving DecidableEq

/-- Collection of identifiers: `tokens.into_iter().filter_map(|token| match token (Ident ident => Some, _ => None))`:
the bare-identifier spellings of a token list, in order. -/
def identList (tokens : List TokenTree) : List String :=
  tokens.filterMap fun t =>
    match t with
    | TokenTree.ident s => some s
    | _ => none

/-- The exact error message of `read_schema_models` when no registration
invocation is found. -/
def noRegistrationMsg : String :=
  "no schemas registered with the 'awto::register_schemas!' macro\n\n   Schemas must be registered:\n      `awto::register_schemas!(SchemaOne, SchemaTwo)`"

/-- The closure passed to `find_map` in `read_schema_models`: a macro item
whose `::`-joined path is `awto::register_schemas` or `register_schemas`
yields its bare-identifier arguments; anything else yields `none`. -/
def registrationModels (item : Item) : Option (List String) :=
  match item with
  | Item.macroCall path tokens =>
    let macroName := String.intercalate "::" path
    if macroName ≠ "awto::register_schemas" ∧ macroName ≠ "register_schemas" then
      none
    else
      some (identList tokens)
  | Item.other => none

/-- Model of `Database::read_schema_models`, after the file read and `syn::parse_file`
succeeded: scan the top-level items for the first registration invocation. -/
def readSchemaModels (items : List Item) : Except Err (List String) :=
  match items.findSome? registrationModels with
  | some models => Except.ok models
  | none => Except.error (Err.noRegistrationFound noRegistrationMsg)

/-- An item is a registration invocation iff the `find_map` closure accepts it. -/
def isRegistration (item : Item) : Bool :=
  (registrationModels item).isSome

/-- Substring test used to state facts about generated/diagnostic text:
`needle` occurs contiguously somewhere in `hay`. -/
def hasSubstr (needle hay : String) : Bool :=
  (List.range (hay.data.length + 1)).any fun i =>
    decide (needle.data = (hay.data.drop i).take needle.data.length)

/-- Word-scanning mode of `heck`'s `transform` loop. -/
inductive WordMode where
  | boundary
  | lowercase
  | uppercase
deriving DecidableEq

/-- The word-splitting loop of `heck` v0.3's `transform`, for one unicode
word (Rust identifiers — letters, digits, underscores — form a single such
word).  Arguments: current mode, the chunk accumulated since the last split
point (`word[init..i]`), and the remaining characters (current character
first).  Returns the list of chunks (`with_word` slices) in order. -/
def heckSplit (mode : WordMode) (cur : List Char) : List Char → List (List Char)
  | [] => []
  | c :: rest =>
    if c = '_' then
      if cur.isEmpty then heckSplit mode [] rest
      else heckSplit mode (cur ++ ['_']) rest
    else
      match rest with
      | [] => [cur ++ [c]]
      | next :: _ =>
        let nextMode :=
          if c.isLower then WordMode.lowercase
          else if c.isUpper then WordMode.uppercase
          else mode
        if next = '_' ∨ (nextMode = WordMode.lowercase ∧ next.isUpper) then
          (cur ++ [c]) :: heckSplit WordMode.boundary [] rest
        else if mode = WordMode.uppercase ∧ c.isUpper ∧ next.isLower then
          cur :: heckSplit WordMode.boundary [c] rest
        else
          heckSplit nextMode (cur ++ [c]) rest

/-- Conversion `heck::SnakeCase::to_snake_case`, modelled for ASCII identifier inputs:
split into chunks, lowercase each, join with `_`. -/
def toSnakeCase (s : String) : String :=
  String.intercalate "_"
    ((heckSplit WordMode.boundary [] s.data).map fun w => String.mk (w.map Char.toLower))

/-- The generated-file header of the synthesized `lib.rs`
(the `concat!` literal in `prepare_database_dir`), parameterized by the
generator's package name and version (`CARGO_PKG_NAME` / `CARGO_PKG_VERSION`). -/
def libHeader (pkgName pkgVersion : String) : String :=
  "// This file is automatically @generated by " ++ pkgName ++ " v" ++ pkgVersion ++
    "\n\npub use sea_orm;\n\ninclude!(concat!(env!(\"OUT_DIR\"), \"/app.rs\"));\n"

/-- The `lib.rs` content built in `prepare_database_dir`: the header, then
for each model the four `writeln!` lines (doc comment, module header,
include-model directive, closing brace). -/
def genLibContent (pkgName pkgVersion : String) (models : List String) : String :=
  models.foldl
    (fun libContent model =>
      let modelName := toSnakeCase model
      libContent ++
        "\n/// " ++ model ++ " database model\n" ++
        "pub mod " ++ modelName ++ " \x7b\n" ++
        "    sea_orm::include_model!(\"" ++ modelName ++ "\");\n" ++
        "\x7d\n")
    (libHeader pkgName pkgVersion)

/-- The per-model block of the generated `lib.rs`, as the spec describes it:
a doc comment naming the model, a module block named by the snake-case
conversion, whose body invokes the include-model directive with that same
converted name. -/
def modelBlock (model : String) : String :=
  "\n/// " ++ model ++ " database model\n" ++
    "pub mod " ++ toSnakeCase model ++ " \x7b\n" ++
    "    sea_orm::include_model!(\"" ++ toSnakeCase model ++ "\");\n" ++
    "\x7d\n"

/-- A file-system path, as its components relative to the project root
(`"./awto/database"` is `["awto", "database"]`). -/
abbrev Path := List String

/-- A file-system entry: a directory, or a file with its content. -/
inductive Entry where
  | dir
  | file (content : String)
deriving DecidableEq

/-- The file system: an association list from paths to entries. -/
abbrev FS := List (Path × Entry)

/-- The entry at a path, if any (first match). -/
def lookupPath (fs : FS) (p : Path) : Option Entry :=
  (fs.find? fun e => decide (e.1 = p)).map Prod.snd

/-- Test `Path::is_dir`: the path is the root, or is mapped to a directory. -/
def isDir (fs : FS) (p : Path) : Bool :=
  decide (p = []) || decide (lookupPath fs p = some Entry.dir)

/-- Subtree membership: `q` lies in the subtree rooted at `p` (including `p` itself). -/
def underPath (p q : Path) : Bool :=
  decide (p = q.take p.length)

/-- Model of `fs::remove_dir_all`: drop the path and every descendant. -/
def removeDirAll (fs : FS) (p : Path) : FS :=
  fs.filter fun e => !underPath p e.1

/-- Drop every entry at exactly the given path. -/
def eraseKey (fs : FS) (p : Path) : FS :=
  fs.filter fun e => !decide (e.1 = p)

/-- Model of `fs::create_dir` (non-recursive): fails if the path already exists in
any form or its parent is not a directory. -/
def createDir (fs : FS) (p : Path) : Option FS :=
  if (lookupPath fs p).isSome then none
  else if isDir fs p.dropLast then some ((p, Entry.dir) :: fs) else none

/-- Model of `fs::write`: create-or-truncate a file; fails if the path is a
directory or the parent directory is missing. -/
def writeFile (fs : FS) (p : Path) (content : String) : Option FS :=
  if lookupPath fs p = some Entry.dir then none
  else if isDir fs p.dropLast then some ((p, Entry.file content) :: eraseKey fs p)
  else none

/-- Well-formed file system: every proper ancestor of every entry's path is
a directory.  Real file systems satisfy this (no orphaned entries). -/
def wf (fs : FS) : Bool :=
  fs.all fun e =>
    (List.range e.1.length).all fun k =>
      decide (k = 0) || decide (lookupPath fs (e.1.take k) = some Entry.dir)

/-- The workspace root directory `./awto`. -/
def awtoDir : Path := ["awto"]

/-- Constant `Database::DATABASE_DIR` (`./awto/database`). -/
def databaseDir : Path := ["awto", "database"]

/-- Constant `Database::DATABASE_SRC_DIR` (`./awto/database/src`). -/
def databaseSrcDir : Path := ["awto", "database", "src"]

/-- Constant `Database::DATABASE_CARGO_PATH` (`./awto/database/Cargo.toml`). -/
def databaseCargoPath : Path := ["awto", "database", "Cargo.toml"]

/-- Constant `Database::DATABASE_BUILD_PATH` (`./awto/database/build.rs`). -/
def databaseBuildPath : Path := ["awto", "database", "build.rs"]

/-- Constant `Database::DATABASE_LIB_PATH` (`./awto/database/src/lib.rs`). -/
def databaseLibPath : Path := ["awto", "database", "src", "lib.rs"]

/-- The `[package]` table of the schema manifest (`util::CargoFile`'s
`package.name`, as used by `Database::run`). -/
structure CargoPackage where
  name : String
deriving DecidableEq

/-- The schema package manifest metadata: `Database::run` reads only the
optional `[package]` table (it calls `.package.as_ref()` and matches
`Some`/`None` on it). -/
structure CargoFile where
  package : Option CargoPackage
deriving DecidableEq

/-- The schema-identity check at the top of `Database::run`:
`if cargo_file.package.as_ref().map(|p| p.name != "schema").unwrap_or(false)`
then match on `package` to build the error. -/
def validateSchema (cargoFile : CargoFile) : Except Err Unit :=
  if (cargoFile.package.map fun package => package.name != "schema").getD false then
    match cargoFile.package with
    | some package => Except.error (Err.invalidSchemaName package.name)
    | none => Except.error Err.missingSchemaName
  else
    Except.ok ()

/-- The stages of the orchestrated run, in the spec's names. -/
inductive Stage where
  | validateSchemaIdentity
  | prepareWorkspaceRoot
  | resetAndBuildPackage
  | registerInWorkspace
  | triggerBuild
deriving DecidableEq

/-- The fixed linear stage order of `Database::run`. -/
def stageOrder : List Stage :=
  [Stage.validateSchemaIdentity, Stage.prepareWorkspaceRoot,
   Stage.resetAndBuildPackage, Stage.registerInWorkspace, Stage.triggerBuild]

/-- The run's environment: the outcome of loading the schema manifest, the
outcome of reading and parsing `./schema/src/lib.rs`, the embedded template
payloads, the generator identity, and the outcomes of the two external
collaborators (workspace registrar, build trigger). -/
structure RunEnv where
  cargoLoad : Except Err CargoFile
  schemaItems : Except Err (List Item)
  cargoTomlBytes : String
  buildBytes : String
  pkgName : String
  pkgVersion : String
  registerResult : Except Err Unit
  buildResult : Except Err Unit
deriving DecidableEq

/-- Model of `Database::read_schema_models` including the file read and parse: the
outcome of reading/parsing the schema source is in the environment. -/
def readSchemaModelsE (src : Except Err (List Item)) : Except Err (List String) :=
  match src with
  | Except.error e => Except.error e
  | Except.ok items => readSchemaModels items

/-- Modelled from the spec: `prepare_awto_dir` (defined outside this file's
source, in `compile/mod.rs`) ensures the shared workspace root `./awto`
exists — idempotent create-if-absent, pre-existing directory is not an
error. -/
def prepareAwtoDir (fs : FS) : FS × Except Err Unit :=
  if isDir fs awtoDir then (fs, Except.ok ())
  else
    match createDir fs awtoDir with
    | some fs1 => (fs1, Except.ok ())
    | none => (fs, Except.error (Err.dirCreate awtoDir))

/-- The steps of `Database::prepare_database_dir` after the initial
conditional reset: recreate the target directory and `src`, write the two
template artifacts, extract the model list, and write the synthesized
`lib.rs`.  On failure the file system is left as the failing step found
it. -/
def buildSteps (env : RunEnv) (fs0 : FS) : FS × Except Err Unit :=
  match createDir fs0 databaseDir with
  | none => (fs0, Except.error (Err.dirCreate databaseDir))
  | some fs1 =>
    match createDir fs1 databaseSrcDir with
    | none => (fs1, Except.error (Err.dirCreate databaseSrcDir))
    | some fs2 =>
      match writeFile fs2 databaseCargoPath env.cargoTomlBytes with
      | none => (fs2, Except.error (Err.fileWrite databaseCargoPath))
      | some fs3 =>
        match writeFile fs3 databaseBuildPath env.buildBytes with
        | none => (fs3, Except.error (Err.fileWrite databaseBuildPath))
        | some fs4 =>
          match readSchemaModelsE env.schemaItems with
          | Except.error e => (fs4, Except.error e)
          | Except.ok models =>
            match writeFile fs4 databaseLibPath
                (genLibContent env.pkgName env.pkgVersion models) with
            | none => (fs4, Except.error (Err.fileWrite databaseLibPath))
            | some fs5 => (fs5, Except.ok ())

/-- Model of `Database::prepare_database_dir`: if the target path is a directory,
recursively delete it; then run the creation/write steps. -/
def prepareDatabaseDir (env : RunEnv) (fs : FS) : FS × Except Err Unit :=
  buildSteps env (if isDir fs databaseDir then removeDirAll fs databaseDir else fs)

/-- The exact contents of the `./awto/database` subtree after a successful
materialization with the extracted `models`. -/
def genEntries (env : RunEnv) (models : List String) : FS :=
  [(databaseLibPath, Entry.file (genLibContent env.pkgName env.pkgVersion models)),
   (databaseBuildPath, Entry.file env.buildBytes),
   (databaseCargoPath, Entry.file env.cargoTomlBytes),
   (databaseSrcDir, Entry.dir),
   (databaseDir, Entry.dir)]

/-- Model of `Database::run`: load-and-validate the schema manifest, prepare the
workspace root, reset-and-build the package, register it in the workspace,
trigger the build.  Returns the stages that executed, the resulting file
system, and the outcome; any stage's failure stops the run with that
error.  The two collaborator stages (`add_package_to_workspace`,
`build_awto_pkg`) are modelled from the spec as environment-supplied
outcomes. -/
def run (env : RunEnv) (fs : FS) : List Stage × FS × Except Err Unit :=
  match env.cargoLoad with
  | Except.error e => ([Stage.validateSchemaIdentity], fs, Except.error e)
  | Except.ok cargoFile =>
    match validateSchema cargoFile with
    | Except.error e => ([Stage.validateSchemaIdentity], fs, Except.error e)
    | Except.ok _ =>
      match prepareAwtoDir fs with
      | (fs1, Except.error e) => (stageOrder.take 2, fs1, Except.error e)
      | (fs1, Except.ok _) =>
        match prepareDatabaseDir env fs1 with
        | (fs2, Except.error e) => (stageOrder.take 3, fs2, Except.error e)
        | (fs2, Except.ok _) =>
          match env.registerResult with
          | Except.error e => (stageOrder.take 4, fs2, Except.error e)
          | Except.ok _ =>
            match env.buildResult with
            | Except.error e => (stageOrder, fs2, Except.error e)
            | Except.ok _ => (stageOrder, fs2, Except.ok ())

/-- A sample run environment used for concrete evaluations: a well-named
schema manifest, a schema source registering `UserAccount`, opaque template
payloads, and succeeding collaborators. -/
def sampleEnv : RunEnv where
  cargoLoad := Except.ok { package := some { name := "schema" } }
  schemaItems := Except.ok [Item.macroCall ["register_schemas"] [TokenTree.ident "UserAccount"]]
  cargoTomlBytes := "CARGO"
  buildBytes := "BUILD"
  pkgName := "awto-cli"
  pkgVersion := "0.1.0"
  registerResult := Except.ok ()
  buildResult := Except.ok ()

/-- A sample pre-populated file system: the workspace root, a stale target
directory and an unrelated stale file inside it. -/
def sampleFs : FS :=
  [(["awto"], Entry.dir), (["awto", "database"], Entry.dir),
   (["awto", "database", "junk.txt"], Entry.file "old")]

/-! ### Lemmas about the scan for the registration invocation -/

theorem findSome?_append_none {α β : Type} (f : α → Option β) (pre l : List α)
    (h : ∀ i ∈ pre, f i = none) : (pre ++ l).findSome? f = l.findSome? f := by
  induction pre with
  | nil => rfl
  | cons a t ih =>
    rw [List.cons_append, List.findSome?_cons, h a (List.mem_cons_self a t)]
    exact ih fun i hi => h i (List.mem_cons_of_mem a hi)

theorem findSome?_eq_none_of_all {α β : Type} (f : α → Option β) (l : List α)
    (h : ∀ i ∈ l, f i = none) : l.findSome? f = none := by
  induction l with
  | nil => rfl
  | cons a t ih =>
    rw [List.findSome?_cons, h a (List.mem_cons_self a t)]
    exact ih fun i hi => h i (List.mem_cons_of_mem a hi)

theorem registrationModels_of_name_ne {path : List String} {toks : List TokenTree}
    (h1 : String.intercalate "::" path ≠ "awto::register_schemas")
    (h2 : String.intercalate "::" path ≠ "register_schemas") :
    registrationModels (Item.macroCall path toks) = none := by
  simp [registrationModels, h1, h2]

theorem registrationModels_of_name_eq {path : List String} {toks : List TokenTree}
    (h : String.intercalate "::" path = "awto::register_schemas" ∨
         String.intercalate "::" path = "register_schemas") :
    registrationModels (Item.macroCall path toks) = some (identList toks) := by
  rcases h with h | h <;> simp [registrationModels, h]

theorem registrationModels_matched {path : List String} {toks : List TokenTree}
    {ms : List String} (h : registrationModels (Item.macroCall path toks) = some ms) :
    ms = identList toks := by
  simp only [registrationModels] at h
  split at h
  · exact absurd h (by simp)
  · exact (Option.some_inj.mp h).symm

/-- C3, counterexample: the registration invocation written under the local
alias spelling `reg` (any spelling other than the two hard-coded ones) is
not recognized — `extract` fails with `NoRegistrationFound` instead of
returning the invocation's model list, refuting the claim that any
locally-imported alias spelling succeeds. -/
theorem c3_alias_not_recognized :
    readSchemaModels [Item.macroCall ["reg"] [TokenTree.ident "Account"]] ≠
      Except.ok ["Account"] ∧
    readSchemaModels [Item.macroCall ["reg"] [TokenTree.ident "Account"]] =
      Except.error (Err.noRegistrationFound noRegistrationMsg) := by
  exact ⟨by decide, by decide⟩

/-- C3, amended: `extract` succeeds on an invocation spelled with the bare
name `register_schemas` or fully-qualified `awto::register_schemas`, and on
no other spelling: the two hard-coded path spellings are compared against
the `::`-joined path of the macro item. -/
theorem c3_recognized_spellings (path : List String) (toks : List TokenTree) :
    (String.intercalate "::" path = "awto::register_schemas" ∨
       String.intercalate "::" path = "register_schemas" →
      readSchemaModels [Item.macroCall path toks] = Except.ok (identList toks)) ∧
    (String.intercalate "::" path ≠ "awto::register_schemas" →
     String.intercalate "::" path ≠ "register_schemas" →
      readSchemaModels [Item.macroCall path toks] =
        Except.error (Err.noRegistrationFound noRegistrationMsg)) := by
  constructor
  · intro h
    simp [readSchemaModels, List.findSome?_cons, registrationModels_of_name_eq h]
  · intro h1 h2
    simp [readSchemaModels, List.findSome?_cons, registrationModels_of_name_ne h1 h2]

/-- Witness for the amended C3 at a concrete input: the fully-qualified
spelling is accepted. -/
theorem c3_recognized_spellings_witness :
    readSchemaModels
        [Item.macroCall ["awto", "register_schemas"] [TokenTree.ident "Account"]] =
      Except.ok ["Account"] :=
  (c3_recognized_spellings ["awto", "register_schemas"] [TokenTree.ident "Account"]).1
    (Or.inl (by decide))

/-- C4: `Marker(A, B, C)` extracts `["A", "B", "C"]` in that order; the
collection keeps every bare-identifier token in left-to-right order and
silently drops commas and every other non-identifier token. -/
theorem c4_ident_collection :
    readSchemaModels
        [Item.macroCall ["awto", "register_schemas"]
          [TokenTree.ident "A", TokenTree.punct ',', TokenTree.ident "B",
           TokenTree.punct ',', TokenTree.ident "C"]] =
      Except.ok ["A", "B", "C"] ∧
    (∀ pre post s, identList (pre ++ TokenTree.ident s :: post) =
        identList pre ++ s :: identList post) ∧
    (∀ pre post c, identList (pre ++ TokenTree.punct c :: post) =
        identList pre ++ identList post) ∧
    (∀ pre post s, identList (pre ++ TokenTree.literal s :: post) =
        identList pre ++ identList post) ∧
    (∀ pre post, identList (pre ++ TokenTree.group :: post) =
        identList pre ++ identList post) ∧
    (∀ toks, readSchemaModels [Item.macroCall ["register_schemas"] toks] =
        Except.ok (identList toks)) := by
  refine ⟨by decide, ?_, ?_, ?_, ?_, ?_⟩
  · intro pre post s
    simp [identList, List.filterMap_append]
  · intro pre post c
    simp [identList, List.filterMap_append]
  · intro pre post s
    simp [identList, List.filterMap_append]
  · intro pre post
    simp [identList, List.filterMap_append]
  · intro toks
    have hr := @registrationModels_of_name_eq ["register_schemas"] toks (Or.inr (by decide))
    simp [readSchemaModels, List.findSome?_cons, hr]

set_option maxRecDepth 8000 in
/-- C5: a schema source whose top-level items contain no registration
invocation makes `extract` fail with `NoRegistrationFound`, and the error
message spells out the exact expected invocation syntax (call-style macro
with comma-separated model identifiers). -/
theorem c5_no_registration (items : List Item)
    (h : ∀ i ∈ items, isRegistration i = false) :
    readSchemaModels items = Except.error (Err.noRegistrationFound noRegistrationMsg) ∧
    hasSubstr "awto::register_schemas!(SchemaOne, SchemaTwo)" noRegistrationMsg = true := by
  constructor
  · have hnone : items.findSome? registrationModels = none :=
      findSome?_eq_none_of_all _ _ fun i hi => by
        have hb := h i hi
        cases hr : registrationModels i with
        | none => rfl
        | some m => simp [isRegistration, hr] at hb
    simp [readSchemaModels, hnone]
  · decide

/-- Witness for C5 at a concrete input: a source with a non-registration
macro item and a non-macro item fails with `NoRegistrationFound`. -/
theorem c5_no_registration_witness :
    readSchemaModels [Item.other, Item.macroCall ["println"] [TokenTree.literal "hi"]] =
      Except.error (Err.noRegistrationFound noRegistrationMsg) :=
  (c5_no_registration [Item.other, Item.macroCall ["println"] [TokenTree.literal "hi"]]
    (by decide)).1

/-- C8: with several registration invocations among the top-level items,
the first one in source order wins — the scan returns its identifier list,
whatever follows; earlier non-matching items (macro or not) do not stop the
scan. -/
theorem c8_first_match_wins (pre rest : List Item) (path : List String)
    (toks : List TokenTree)
    (hpre : ∀ i ∈ pre, isRegistration i = false)
    (hm : isRegistration (Item.macroCall path toks) = true) :
    readSchemaModels (pre ++ Item.macroCall path toks :: rest) =
      Except.ok (identList toks) := by
  have hnone : ∀ i ∈ pre, registrationModels i = none := fun i hi => by
    have hb := hpre i hi
    cases hr : registrationModels i with
    | none => rfl
    | some m => simp [isRegistration, hr] at hb
  obtain ⟨ms, hms⟩ : ∃ ms, registrationModels (Item.macroCall path toks) = some ms := by
    cases hr : registrationModels (Item.macroCall path toks) with
    | none => simp [isRegistration, hr] at hm
    | some m => exact ⟨m, rfl⟩
  simp only [readSchemaModels, findSome?_append_none _ _ _ hnone,
    List.findSome?_cons, hms]
  rw [registrationModels_matched hms]

/-- Witness for C8 at a concrete input: the scan skips a non-macro item and
a non-matching macro item, returns the first registration invocation's
identifiers, and ignores a later registration invocation. -/
theorem c8_first_match_wins_witness :
    readSchemaModels
        [Item.other,
         Item.macroCall ["println"] [TokenTree.ident "X"],
         Item.macroCall ["register_schemas"]
           [TokenTree.ident "A", TokenTree.punct ',', TokenTree.ident "B"],
         Item.macroCall ["awto", "register_schemas"] [TokenTree.ident "Z"]] =
      Except.ok ["A", "B"] :=
  c8_first_match_wins
    [Item.other, Item.macroCall ["println"] [TokenTree.ident "X"]]
    [Item.macroCall ["awto", "register_schemas"] [TokenTree.ident "Z"]]
    ["register_schemas"]
    [TokenTree.ident "A", TokenTree.punct ',', TokenTree.ident "B"]
    (by decide) (by decide)

/-! ### Validation and orchestration claims -/

/-- C1: a schema manifest whose declared package name is present and not
`"schema"` makes the run stop at the identity check with
`InvalidSchemaName` carrying the actual name; only that stage executed and
the file system — the target package directory and the workspace root
included — is exactly as before. -/
theorem c1_invalid_name_no_mutation (env : RunEnv) (fs : FS)
    (cargoFile : CargoFile) (name : String)
    (hload : env.cargoLoad = Except.ok cargoFile)
    (hpkg : cargoFile.package = some { name := name })
    (hname : name ≠ "schema") :
    run env fs = ([Stage.validateSchemaIdentity], fs,
      Except.error (Err.invalidSchemaName name)) := by
  have hv : validateSchema cargoFile = Except.error (Err.invalidSchemaName name) := by
    simp [validateSchema, hpkg, hname]
  simp [run, hload, hv]

/-- Witness for C1 at a concrete input: declared name `"foo"`. -/
theorem c1_invalid_name_no_mutation_witness :
    run { sampleEnv with cargoLoad := Except.ok { package := some { name := "foo" } } }
        [(["awto"], Entry.dir)] =
      ([Stage.validateSchemaIdentity], [(["awto"], Entry.dir)],
       Except.error (Err.invalidSchemaName "foo")) :=
  c1_invalid_name_no_mutation _ _ { package := some { name := "foo" } } "foo"
    rfl rfl (by decide)

set_option maxRecDepth 10000 in
/-- C2 (code-bug evidence): with the package-name field entirely absent the
identity check `package.map(|p| p.name != "schema").unwrap_or(false)`
evaluates to `false`, so validation passes — the `MissingSchemaName` branch
is unreachable — and a full run proceeds and succeeds (mutating the file
system) instead of failing before any mutation as the claim states. -/
theorem c2_missing_name_passes_validation :
    validateSchema { package := none } = Except.ok () ∧
    (run { sampleEnv with cargoLoad := Except.ok { package := none } }
        [(["awto"], Entry.dir)]).1 = stageOrder ∧
    (run { sampleEnv with cargoLoad := Except.ok { package := none } }
        [(["awto"], Entry.dir)]).2.2 = Except.ok () ∧
    (run { sampleEnv with cargoLoad := Except.ok { package := none } }
        [(["awto"], Entry.dir)]).2.1 ≠ [(["awto"], Entry.dir)] := by
  exact ⟨by decide, by decide, by decide, by decide⟩

/-- C10: when the target package path exists as a regular file, the
recursive delete is skipped (only a directory is deleted) and the run fails
at the following `create_dir` with `DirectoryCreateError` naming the target
path — not with `DirectoryDeleteError` — leaving the file system
untouched. -/
theorem c10_file_at_target (env : RunEnv) (fs : FS) (content : String)
    (h : lookupPath fs databaseDir = some (Entry.file content)) :
    prepareDatabaseDir env fs = (fs, Except.error (Err.dirCreate databaseDir)) := by
  have hne : (decide (databaseDir = ([] : Path)) : Bool) = false := by decide
  have hdir : isDir fs databaseDir = false := by
    simp [isDir, h, hne]
  have hc : createDir fs databaseDir = none := by
    simp [createDir, h]
  simp [prepareDatabaseDir, hdir, buildSteps, hc]

/-- Witness for C10 at a concrete input: a stale file at
`./awto/database`. -/
theorem c10_file_at_target_witness :
    prepareDatabaseDir sampleEnv
        [(["awto"], Entry.dir), (["awto", "database"], Entry.file "stale")] =
      ([(["awto"], Entry.dir), (["awto", "database"], Entry.file "stale")],
       Except.error (Err.dirCreate databaseDir)) :=
  c10_file_at_target sampleEnv
    [(["awto"], Entry.dir), (["awto", "database"], Entry.file "stale")] "stale"
    (by decide)

theorem stage_trace_shape (n : Nat) (tr : List Stage) (fsx : FS) (r : Except Err Unit)
    (h1 : 0 < n) (h2 : n ≤ 5) (h3 : tr = stageOrder.take n)
    (h4 : r = Except.ok () → n = 5) (h5 : tr.Nodup)
    (h6 : ∀ s ∈ stageOrder.drop n, s ∉ tr) :
    ∃ m, 0 < m ∧ m ≤ 5 ∧ (tr, fsx, r).1 = stageOrder.take m ∧
      ((tr, fsx, r).2.2 = Except.ok () → m = 5) ∧
      (tr, fsx, r).1.Nodup ∧
      ∀ s ∈ stageOrder.drop m, s ∉ (tr, fsx, r).1 :=
  ⟨n, h1, h2, h3, h4, h5, h6⟩

/-- C9: the run's executed-stage trace is always a prefix of the fixed
linear order `ValidateSchemaIdentity, PrepareWorkspaceRoot,
ResetAndBuildPackage, RegisterInWorkspace, TriggerBuild`; success means all
five stages ran; no stage repeats (no retries); and the stages after the
point where the run stopped never executed. -/
theorem c9_linear_stage_order (env : RunEnv) (fs : FS) :
    ∃ n, 0 < n ∧ n ≤ 5 ∧ (run env fs).1 = stageOrder.take n ∧
      ((run env fs).2.2 = Except.ok () → n = 5) ∧
      (run env fs).1.Nodup ∧
      ∀ s ∈ stageOrder.drop n, s ∉ (run env fs).1 := by
  cases hload : env.cargoLoad with
  | error e =>
    have hrun : run env fs = ([Stage.validateSchemaIdentity], fs, Except.error e) := by
      simp [run, hload]
    rw [hrun]
    exact stage_trace_shape 1 _ _ _ (by decide) (by decide) rfl
      (fun h => by simp at h) (by decide) (by decide)
  | ok cargoFile =>
    cases hv : validateSchema cargoFile with
    | error e =>
      have hrun : run env fs = ([Stage.validateSchemaIdentity], fs, Except.error e) := by
        simp [run, hload, hv]
      rw [hrun]
      exact stage_trace_shape 1 _ _ _ (by decide) (by decide) rfl
        (fun h => by simp at h) (by decide) (by decide)
    | ok u =>
      rcases hp : prepareAwtoDir fs with ⟨fs1, rp⟩
      cases rp with
      | error e =>
        have hrun : run env fs = (stageOrder.take 2, fs1, Except.error e) := by
          simp [run, hload, hv, hp]
        rw [hrun]
        exact stage_trace_shape 2 _ _ _ (by decide) (by decide) rfl
          (fun h => by simp at h) (by decide) (by decide)
      | ok u1 =>
        rcases hd : prepareDatabaseDir env fs1 with ⟨fs2, rd⟩
        cases rd with
        | error e =>
          have hrun : run env fs = (stageOrder.take 3, fs2, Except.error e) := by
            simp [run, hload, hv, hp, hd]
          rw [hrun]
          exact stage_trace_shape 3 _ _ _ (by decide) (by decide) rfl
            (fun h => by simp at h) (by decide) (by decide)
        | ok u2 =>
          cases hreg : env.registerResult with
          | error e =>
            have hrun : run env fs = (stageOrder.take 4, fs2, Except.error e) := by
              simp [run, hload, hv, hp, hd, hreg]
            rw [hrun]
            exact stage_trace_shape 4 _ _ _ (by decide) (by decide) rfl
              (fun h => by simp at h) (by decide) (by decide)
          | ok u3 =>
            cases hb : env.buildResult with
            | error e =>
              have hrun : run env fs = (stageOrder, fs2, Except.error e) := by
                simp [run, hload, hv, hp, hd, hreg, hb]
              rw [hrun]
              exact stage_trace_shape 5 _ _ _ (by decide) (by decide) rfl
                (fun _ => rfl) (by decide) (by decide)
            | ok u4 =>
              have hrun : run env fs = (stageOrder, fs2, Except.ok ()) := by
                simp [run, hload, hv, hp, hd, hreg, hb]
              rw [hrun]
              exact stage_trace_shape 5 _ _ _ (by decide) (by decide) rfl
                (fun _ => rfl) (by decide) (by decide)

/-! ### Lemmas about the generated library entry file -/

theorem strFoldlAppend (l : List String) (init : String) :
    l.foldl (fun r s => r ++ s) init = init ++ l.foldl (fun r s => r ++ s) "" := by
  induction l generalizing init with
  | nil => exact (String.append_empty init).symm
  | cons a t ih =>
    rw [List.foldl_cons, List.foldl_cons, ih (init ++ a), String.empty_append,
      ih a, String.append_assoc]

theorem strJoin_cons (a : String) (l : List String) :
    String.join (a :: l) = a ++ String.join l := by
  show List.foldl (fun r s => r ++ s) "" (a :: l) = a ++ String.join l
  rw [List.foldl_cons, String.empty_append, strFoldlAppend]
  rfl

theorem foldl_modelBlocks (models : List String) (init : String) :
    models.foldl (fun acc m => acc ++ modelBlock m) init =
      init ++ String.join (models.map modelBlock) := by
  induction models generalizing init with
  | nil => exact (String.append_empty init).symm
  | cons m t ih =>
    rw [List.foldl_cons, ih (init ++ modelBlock m), List.map_cons, strJoin_cons,
      String.append_assoc]

theorem genLibContent_eq (pkgName pkgVersion : String) (models : List String) :
    genLibContent pkgName pkgVersion models =
      libHeader pkgName pkgVersion ++ String.join (models.map modelBlock) := by
  unfold genLibContent
  have hFG : (fun (libContent model : String) =>
      let modelName := toSnakeCase model
      libContent ++ "\n/// " ++ model ++ " database model\n" ++ "pub mod " ++ modelName ++
        " \x7b\n" ++ "    sea_orm::include_model!(\"" ++ modelName ++ "\");\n" ++ "\x7d\n") =
      fun acc m => acc ++ modelBlock m := by
    funext acc m
    simp only [modelBlock, String.append_assoc]
  rw [hFG, foldl_modelBlocks]

set_option maxRecDepth 10000 in
/-- C6: the synthesized library entry file is the fixed header followed by,
for each model name in list order, a block consisting of a doc comment
naming the model, a module named by the snake-case conversion of the name,
and an include-model directive parameterized with that same converted name;
in particular `["UserAccount"]` yields module `user_account` and the
directive parameterized with `"user_account"`. -/
theorem c6_materialized_modules (pkgName pkgVersion : String) (models : List String) :
    genLibContent pkgName pkgVersion models =
      libHeader pkgName pkgVersion ++ String.join (models.map modelBlock) ∧
    (∀ m, modelBlock m = "\n/// " ++ m ++ " database model\n" ++
        "pub mod " ++ toSnakeCase m ++ " \x7b\n" ++
        "    sea_orm::include_model!(\"" ++ toSnakeCase m ++ "\");\n" ++ "\x7d\n") ∧
    toSnakeCase "UserAccount" = "user_account" ∧
    hasSubstr "pub mod user_account \x7b"
      (genLibContent "awto-cli" "0.1.0" ["UserAccount"]) = true ∧
    hasSubstr "sea_orm::include_model!(\"user_account\");"
      (genLibContent "awto-cli" "0.1.0" ["UserAccount"]) = true := by
  exact ⟨genLibContent_eq pkgName pkgVersion models, fun m => rfl, by decide, by decide,
    by decide⟩

/-! ### Lemmas about the file-system model -/

theorem lookupPath_nil (p : Path) : lookupPath [] p = none := rfl

theorem lookupPath_cons (k : Path) (v : Entry) (fs : FS) (p : Path) :
    lookupPath ((k, v) :: fs) p = if k = p then some v else lookupPath fs p := by
  by_cases hk : k = p <;> simp [lookupPath, List.find?_cons, hk]

theorem lookupPath_filter (fs : FS) (q : Path → Bool) (p : Path) :
    lookupPath (fs.filter fun e => q e.1) p =
      if q p = true then lookupPath fs p else none := by
  induction fs with
  | nil => by_cases hq : q p = true <;> simp [lookupPath, hq]
  | cons e fs ih =>
    obtain ⟨k, v⟩ := e
    rw [List.filter_cons]
    by_cases hq : q k = true
    · rw [if_pos hq, lookupPath_cons, lookupPath_cons]
      by_cases hk : k = p
      · subst hk
        simp [hq]
      · simp [hk, ih]
    · rw [if_neg hq, ih, lookupPath_cons]
      by_cases hk : k = p
      · subst hk
        simp [hq, Bool.not_eq_true _ ▸ hq]
      · simp [hk]

theorem lookupPath_eq_none {fs : FS} {p : Path} :
    lookupPath fs p = none ↔ ∀ e ∈ fs, e.1 ≠ p := by
  constructor
  · intro h e he
    have h1 : fs.find? (fun e => decide (e.1 = p)) = none := Option.map_eq_none'.mp h
    simpa using List.find?_eq_none.mp h1 e he
  · intro h
    unfold lookupPath
    rw [List.find?_eq_none.mpr fun x hx => by simpa using h x hx]
    rfl

theorem lookupPath_mem_ne_none {fs : FS} {e : Path × Entry} (he : e ∈ fs) :
    lookupPath fs e.1 ≠ none := fun h => lookupPath_eq_none.mp h e he rfl

theorem eraseKey_of_lookup_none {fs : FS} {p : Path}
    (h : lookupPath fs p = none) : eraseKey fs p = fs := by
  apply List.filter_eq_self.mpr
  intro e he
  simp [lookupPath_eq_none.mp h e he]

theorem filter_under_removeDirAll (fs : FS) (p : Path) :
    (removeDirAll fs p).filter (fun e => underPath p e.1) = [] := by
  apply List.filter_eq_nil_iff.mpr
  intro e he
  have h2 := (List.mem_filter.mp he).2
  simp at h2
  simp [h2]

theorem wf_under_none {fs : FS} (hwf : wf fs = true)
    (hdb : lookupPath fs databaseDir = none) {q : Path}
    (hq : underPath databaseDir q = true) : lookupPath fs q = none := by
  cases hfind : lookupPath fs q with
  | none => rfl
  | some v =>
    exfalso
    obtain ⟨e, hmem, hkey⟩ : ∃ e ∈ fs, e.1 = q := by
      unfold lookupPath at hfind
      cases hf : fs.find? (fun e => decide (e.1 = q)) with
      | none => rw [hf] at hfind; simp at hfind
      | some e =>
        refine ⟨e, List.mem_of_find?_eq_some hf, ?_⟩
        simpa using List.find?_some hf
    have h0 : databaseDir = q.take databaseDir.length := by
      simpa [underPath] using hq
    have hdbq : databaseDir = q.take 2 := h0
    rcases Nat.lt_or_ge 2 q.length with hlen | hlen
    · have h1 := List.all_eq_true.mp hwf e hmem
      have h2 := List.all_eq_true.mp h1 2 (by rw [hkey]; exact List.mem_range.mpr hlen)
      rw [hkey] at h2
      simp at h2
      rw [← hdbq] at h2
      rw [h2] at hdb
      simp at hdb
    · have hqq : q.take 2 = q := List.take_of_length_le hlen
      rw [hqq] at hdbq
      rw [← hdbq] at hfind
      rw [hfind] at hdb
      simp at hdb

theorem wf_filter_under_nil {fs : FS} (hwf : wf fs = true)
    (hdb : lookupPath fs databaseDir = none) :
    fs.filter (fun e => underPath databaseDir e.1) = [] := by
  apply List.filter_eq_nil_iff.mpr
  intro e he hu
  exact lookupPath_mem_ne_none he (wf_under_none hwf hdb hu)

theorem isDir_of_lookup {fs : FS} {p : Path} (h : lookupPath fs p = some Entry.dir) :
    isDir fs p = true := by
  simp [isDir, h]

theorem buildSteps_err_of_lookup {env : RunEnv} {fs0 : FS} {v : Entry}
    (h : lookupPath fs0 databaseDir = some v) :
    buildSteps env fs0 = (fs0, Except.error (Err.dirCreate databaseDir)) := by
  have hc : createDir fs0 databaseDir = none := by simp [createDir, h]
  simp [buildSteps, hc]

theorem buildSteps_err_of_parent {env : RunEnv} {fs0 : FS}
    (hawto : isDir fs0 ["awto"] = false) (hdb : lookupPath fs0 databaseDir = none) :
    buildSteps env fs0 = (fs0, Except.error (Err.dirCreate databaseDir)) := by
  have hdrop : databaseDir.dropLast = (["awto"] : Path) := by decide
  have hc : createDir fs0 databaseDir = none := by simp [createDir, hdb, hdrop, hawto]
  simp [buildSteps, hc]

theorem buildSteps_run (env : RunEnv) (fs0 : FS)
    (hawto : isDir fs0 ["awto"] = true)
    (hdb : lookupPath fs0 databaseDir = none)
    (hsrc : lookupPath fs0 databaseSrcDir = none)
    (hcargo : lookupPath fs0 databaseCargoPath = none)
    (hbuild : lookupPath fs0 databaseBuildPath = none)
    (hlib : lookupPath fs0 databaseLibPath = none) :
    (∀ e, readSchemaModelsE env.schemaItems = Except.error e →
        buildSteps env fs0 =
          ((databaseBuildPath, Entry.file env.buildBytes) ::
             (databaseCargoPath, Entry.file env.cargoTomlBytes) ::
             (databaseSrcDir, Entry.dir) :: (databaseDir, Entry.dir) :: fs0,
           Except.error e)) ∧
    (∀ models, readSchemaModelsE env.schemaItems = Except.ok models →
        buildSteps env fs0 = (genEntries env models ++ fs0, Except.ok ())) := by
  have hd1 : databaseDir.dropLast = (["awto"] : Path) := by decide
  have hd2 : databaseSrcDir.dropLast = databaseDir := by decide
  have hd3 : databaseCargoPath.dropLast = databaseDir := by decide
  have hd4 : databaseBuildPath.dropLast = databaseDir := by decide
  have hd5 : databaseLibPath.dropLast = databaseSrcDir := by decide
  have h1 : createDir fs0 databaseDir = some ((databaseDir, Entry.dir) :: fs0) := by
    simp [createDir, hdb, hd1, hawto]
  have ldb1 : lookupPath ((databaseDir, Entry.dir) :: fs0) databaseDir = some Entry.dir := by
    rw [lookupPath_cons, if_pos rfl]
  have lsrc1 : lookupPath ((databaseDir, Entry.dir) :: fs0) databaseSrcDir = none := by
    rw [lookupPath_cons, if_neg (by decide), hsrc]
  have h2 : createDir ((databaseDir, Entry.dir) :: fs0) databaseSrcDir =
      some ((databaseSrcDir, Entry.dir) :: (databaseDir, Entry.dir) :: fs0) := by
    simp [createDir, lsrc1, hd2, isDir_of_lookup ldb1]
  have lcargo2 : lookupPath ((databaseSrcDir, Entry.dir) :: (databaseDir, Entry.dir) :: fs0)
      databaseCargoPath = none := by
    rw [lookupPath_cons, if_neg (by decide), lookupPath_cons, if_neg (by decide), hcargo]
  have ldb2 : lookupPath ((databaseSrcDir, Entry.dir) :: (databaseDir, Entry.dir) :: fs0)
      databaseDir = some Entry.dir := by
    rw [lookupPath_cons, if_neg (by decide), lookupPath_cons, if_pos rfl]
  have h3 : writeFile ((databaseSrcDir, Entry.dir) :: (databaseDir, Entry.dir) :: fs0)
      databaseCargoPath env.cargoTomlBytes =
      some ((databaseCargoPath, Entry.file env.cargoTomlBytes) ::
        (databaseSrcDir, Entry.dir) :: (databaseDir, Entry.dir) :: fs0) := by
    simp [writeFile, lcargo2, hd3, isDir_of_lookup ldb2, eraseKey_of_lookup_none lcargo2]
  have lbuild3 : lookupPath ((databaseCargoPath, Entry.file env.cargoTomlBytes) ::
      (databaseSrcDir, Entry.dir) :: (databaseDir, Entry.dir) :: fs0)
      databaseBuildPath = none := by
    rw [lookupPath_cons, if_neg (by decide), lookupPath_cons, if_neg (by decide),
      lookupPath_cons, if_neg (by decide), hbuild]
  have ldb3 : lookupPath ((databaseCargoPath, Entry.file env.cargoTomlBytes) ::
      (databaseSrcDir, Entry.dir) :: (databaseDir, Entry.dir) :: fs0)
      databaseDir = some Entry.dir := by
    rw [lookupPath_cons, if_neg (by decide), lookupPath_cons, if_neg (by decide),
      lookupPath_cons, if_pos rfl]
  have h4 : writeFile ((databaseCargoPath, Entry.file env.cargoTomlBytes) ::
      (databaseSrcDir, Entry.dir) :: (databaseDir, Entry.dir) :: fs0)
      databaseBuildPath env.buildBytes =
      some ((databaseBuildPath, Entry.file env.buildBytes) ::
        (databaseCargoPath, Entry.file env.cargoTomlBytes) ::
        (databaseSrcDir, Entry.dir) :: (databaseDir, Entry.dir) :: fs0) := by
    simp [writeFile, lbuild3, hd4, isDir_of_lookup ldb3, eraseKey_of_lookup_none lbuild3]
  have llib4 : lookupPath ((databaseBuildPath, Entry.file env.buildBytes) ::
      (databaseCargoPath, Entry.file env.cargoTomlBytes) ::
      (databaseSrcDir, Entry.dir) :: (databaseDir, Entry.dir) :: fs0)
      databaseLibPath = none := by
    rw [lookupPath_cons, if_neg (by decide), lookupPath_cons, if_neg (by decide),
      lookupPath_cons, if_neg (by decide), lookupPath_cons, if_neg (by decide), hlib]
  have lsrc4 : lookupPath ((databaseBuildPath, Entry.file env.buildBytes) ::
      (databaseCargoPath, Entry.file env.cargoTomlBytes) ::
      (databaseSrcDir, Entry.dir) :: (databaseDir, Entry.dir) :: fs0)
      databaseSrcDir = some Entry.dir := by
    rw [lookupPath_cons, if_neg (by decide), lookupPath_cons, if_neg (by decide),
      lookupPath_cons, if_pos rfl]
  have h5 : ∀ c, writeFile ((databaseBuildPath, Entry.file env.buildBytes) ::
      (databaseCargoPath, Entry.file env.cargoTomlBytes) ::
      (databaseSrcDir, Entry.dir) :: (databaseDir, Entry.dir) :: fs0)
      databaseLibPath c =
      some ((databaseLibPath, Entry.file c) ::
        (databaseBuildPath, Entry.file env.buildBytes) ::
        (databaseCargoPath, Entry.file env.cargoTomlBytes) ::
        (databaseSrcDir, Entry.dir) :: (databaseDir, Entry.dir) :: fs0) := fun c => by
    simp [writeFile, llib4, hd5, isDir_of_lookup lsrc4, eraseKey_of_lookup_none llib4]
  constructor
  · intro e hM
    simp only [buildSteps, h1, h2, h3, h4, hM]
  · intro models hM
    simp only [buildSteps, h1, h2, h3, h4, hM, h5]
    rfl

theorem buildSteps_ok_shape (env : RunEnv) (fs0 fs' : FS)
    (hdb : lookupPath fs0 databaseDir = none)
    (hsrc : lookupPath fs0 databaseSrcDir = none)
    (hcargo : lookupPath fs0 databaseCargoPath = none)
    (hbuild : lookupPath fs0 databaseBuildPath = none)
    (hlib : lookupPath fs0 databaseLibPath = none)
    (hok : buildSteps env fs0 = (fs', Except.ok ())) :
    ∃ models, readSchemaModelsE env.schemaItems = Except.ok models ∧
      fs' = genEntries env models ++ fs0 := by
  by_cases hawto : isDir fs0 ["awto"] = true
  · cases hM : readSchemaModelsE env.schemaItems with
    | error e =>
      rw [(buildSteps_run env fs0 hawto hdb hsrc hcargo hbuild hlib).1 e hM] at hok
      simp at hok
    | ok models =>
      refine ⟨models, rfl, ?_⟩
      rw [(buildSteps_run env fs0 hawto hdb hsrc hcargo hbuild hlib).2 models hM] at hok
      exact (congrArg Prod.fst hok).symm
  · rw [buildSteps_err_of_parent (by simpa using hawto) hdb] at hok
    simp at hok

theorem lookupPath_removeDirAll (fs : FS) (p q : Path) :
    lookupPath (removeDirAll fs p) q =
      if underPath p q = true then none else lookupPath fs q := by
  unfold removeDirAll
  rw [lookupPath_filter fs (fun x => !underPath p x) q]
  by_cases h : underPath p q = true <;> simp [h]

theorem prepare_ok_shape (env : RunEnv) (fs fs' : FS) (hwf : wf fs = true)
    (hok : prepareDatabaseDir env fs = (fs', Except.ok ())) :
    ∃ models fs0, readSchemaModelsE env.schemaItems = Except.ok models ∧
      fs' = genEntries env models ++ fs0 ∧
      fs0.filter (fun e => underPath databaseDir e.1) = [] := by
  unfold prepareDatabaseDir at hok
  by_cases hdir : isDir fs databaseDir = true
  · rw [if_pos hdir] at hok
    have hU : ∀ q : Path, underPath databaseDir q = true →
        lookupPath (removeDirAll fs databaseDir) q = none := by
      intro q hq
      rw [lookupPath_removeDirAll, if_pos hq]
    obtain ⟨models, hM, hsh⟩ := buildSteps_ok_shape env _ fs'
      (hU _ (by decide)) (hU _ (by decide)) (hU _ (by decide)) (hU _ (by decide))
      (hU _ (by decide)) hok
    exact ⟨models, removeDirAll fs databaseDir, hM, hsh,
      filter_under_removeDirAll fs databaseDir⟩
  · rw [if_neg hdir] at hok
    cases hdbl : lookupPath fs databaseDir with
    | some v =>
      rw [buildSteps_err_of_lookup hdbl] at hok
      simp at hok
    | none =>
      obtain ⟨models, hM, hsh⟩ := buildSteps_ok_shape env fs fs' hdbl
        (wf_under_none hwf hdbl
          (show underPath databaseDir databaseSrcDir = true by decide))
        (wf_under_none hwf hdbl
          (show underPath databaseDir databaseCargoPath = true by decide))
        (wf_under_none hwf hdbl
          (show underPath databaseDir databaseBuildPath = true by decide))
        (wf_under_none hwf hdbl
          (show underPath databaseDir databaseLibPath = true by decide)) hok
      exact ⟨models, fs, hM, hsh, wf_filter_under_nil hwf hdbl⟩

/-- C7: after every successful materialization on a well-formed file
system, the target package subtree contains exactly the generated
artifacts — the package directory, its `src` directory, the manifest, the
build-step file, and the synthesized library entry file — and nothing
else: every prior content of the subtree (previous runs' modules,
unrelated files) is gone. -/
theorem c7_exact_artifacts (env : RunEnv) (fs fs' : FS) (hwf : wf fs = true)
    (hok : prepareDatabaseDir env fs = (fs', Except.ok ())) :
    ∃ models, readSchemaModelsE env.schemaItems = Except.ok models ∧
      fs'.filter (fun e => underPath databaseDir e.1) = genEntries env models := by
  obtain ⟨models, fs0, hM, hsh, hsub⟩ := prepare_ok_shape env fs fs' hwf hok
  refine ⟨models, hM, ?_⟩
  have hgen : (genEntries env models).filter (fun e => underPath databaseDir e.1) =
      genEntries env models := by
    apply List.filter_eq_self.mpr
    intro e he
    simp only [genEntries, List.mem_cons, List.not_mem_nil, or_false] at he
    rcases he with rfl | rfl | rfl | rfl | rfl
    · exact (by decide : underPath databaseDir databaseLibPath = true)
    · exact (by decide : underPath databaseDir databaseBuildPath = true)
    · exact (by decide : underPath databaseDir databaseCargoPath = true)
    · exact (by decide : underPath databaseDir databaseSrcDir = true)
    · exact (by decide : underPath databaseDir databaseDir = true)
  rw [hsh, List.filter_append, hgen, hsub, List.append_nil]

set_option maxRecDepth 10000 in
/-- Witness for C7 at a concrete input: materializing over a pre-populated
target directory (holding a stale junk file) leaves exactly the five
generated artifacts in the subtree. -/
theorem c7_exact_artifacts_witness :
    ∃ models, readSchemaModelsE sampleEnv.schemaItems = Except.ok models ∧
      (((databaseLibPath, Entry.file (genLibContent "awto-cli" "0.1.0" ["UserAccount"])) ::
        (databaseBuildPath, Entry.file "BUILD") ::
        (databaseCargoPath, Entry.file "CARGO") ::
        (databaseSrcDir, Entry.dir) :: (databaseDir, Entry.dir) ::
        ([(["awto"], Entry.dir)] : FS)).filter
          (fun e => underPath databaseDir e.1)) = genEntries sampleEnv models :=
  c7_exact_artifacts sampleEnv sampleFs _ (by decide) (by decide)

end Awto
